import Mathlib

/-!
A shallow embedding of the zatboard coordinator and its permissioned
virtual filesystem (`src/filesystem.rs`, `src/coordinator.rs`,
`src/message.rs`), together with theorems settling the frozen claims.

Strings are Lean `String`s; the Rust string primitives used by the code
(`split`, `splitn`, `trim_start_matches`, `trim_end_matches`,
`starts_with`) are re-implemented on the underlying character lists so
that they mirror the Rust semantics exactly.  `HashMap<String, _>` values
are embedded as association lists with unique keys maintained by a
replace-or-append insert (iteration order is irrelevant to every claim:
the only iteration, `list_children`, sorts its output).  Wall-clock
reads (`SystemTime::now`) become an explicit `now : Nat` argument, and
the hash-based token generators (`generate_session_id`, the challenge
issued by `initiate_authentication`) become an explicit `gen : String`
argument supplied per call.  Fallible operations return their
`Result` paired with the post-state, so that a failed mutation's effect
on the state is part of the embedding rather than assumed away.
-/

namespace ZatBoard

/-- Rust `str::split(c)` semantics on a character list: always at least
one (possibly empty) piece. -/
def splitOnChar (c : Char) : List Char → List (List Char)
  | [] => [[]]
  | x :: xs =>
    if x = c then [] :: splitOnChar c xs
    else
      match splitOnChar c xs with
      | [] => [[x]]
      | y :: ys => (x :: y) :: ys

/-- First occurrence split: `some (before, after)` around the first `c`,
`none` when `c` does not occur.  Rust `splitn(2, c)` yields two pieces
exactly when this is `some`. -/
def splitFirst (c : Char) : List Char → Option (List Char × List Char)
  | [] => none
  | x :: xs =>
    if x = c then some ([], xs)
    else (splitFirst c xs).map (fun p => (x :: p.1, p.2))

/-- Rust `trim_start_matches(c)`: drop every leading `c`. -/
def trimLeading (c : Char) : List Char → List Char
  | [] => []
  | x :: xs => if x = c then trimLeading c xs else x :: xs

/-- Rust `trim_end_matches(c)`: drop every trailing `c`. -/
def trimTrailing (c : Char) (l : List Char) : List Char :=
  (trimLeading c l.reverse).reverse

/-- Rust `str::starts_with` on character lists. -/
def isPre : List Char → List Char → Bool
  | [], _ => true
  | _ :: _, [] => false
  | a :: as, b :: bs => a == b && isPre as bs

/-- Rust `str::starts_with` on strings. -/
def starts_with (s p : String) : Bool := isPre p.data s.data

/-- Rust `"a".join(sep)` for a single-character separator. -/
def joinChar (c : Char) : List (List Char) → List Char
  | [] => []
  | [x] => x
  | x :: y :: ys => x ++ c :: joinChar c (y :: ys)

/-- Rust `splitn(2, c)` on a string: one piece when `c` is absent, else
the part before the first `c` and everything after it. -/
def splitn2 (c : Char) (s : String) : List String :=
  match splitFirst c s.data with
  | none => [s]
  | some (a, b) => [⟨a⟩, ⟨b⟩]

/-- Rust `splitn(3, c)` on a string. -/
def splitn3 (c : Char) (s : String) : List String :=
  match splitFirst c s.data with
  | none => [s]
  | some (a, b) =>
    match splitFirst c b with
    | none => [⟨a⟩, ⟨b⟩]
    | some (b1, b2) => [⟨a⟩, ⟨b1⟩, ⟨b2⟩]

/-- `FileType` from `src/filesystem.rs`. -/
inductive FileType where
  | Directory
  | File
deriving DecidableEq

/-- `Permissions` from `src/filesystem.rs`. -/
structure Permissions where
  owner : String
  read_users : List String
  write_users : List String
  public_read : Bool
  public_write : Bool
deriving DecidableEq

/-- `Permissions::new`. -/
def Permissions.new (owner : String) : Permissions :=
  { owner := owner
    read_users := [owner]
    write_users := [owner]
    public_read := true
    public_write := false }

/-- `Permissions::can_read`. -/
def Permissions.can_read (p : Permissions) (user : String) : Bool :=
  p.public_read || p.owner == user || p.read_users.contains user

/-- `Permissions::can_write`. -/
def Permissions.can_write (p : Permissions) (user : String) : Bool :=
  p.public_write || p.owner == user || p.write_users.contains user

/-- `FileNode` from `src/filesystem.rs`; `children` embeds the
`HashMap<String, FileNode>` as an association list. -/
inductive FileNode where
  | mk (name : String) (file_type : FileType) (content : Option String)
      (children : List (String × FileNode)) (permissions : Permissions)
      (created_by : String) (created_at : Nat) (modified_at : Nat)

def FileNode.name : FileNode → String
  | .mk n _ _ _ _ _ _ _ => n

def FileNode.file_type : FileNode → FileType
  | .mk _ t _ _ _ _ _ _ => t

def FileNode.content : FileNode → Option String
  | .mk _ _ c _ _ _ _ _ => c

def FileNode.children : FileNode → List (String × FileNode)
  | .mk _ _ _ cs _ _ _ _ => cs

def FileNode.permissions : FileNode → Permissions
  | .mk _ _ _ _ p _ _ _ => p

def FileNode.created_by : FileNode → String
  | .mk _ _ _ _ _ cb _ _ => cb

def FileNode.created_at : FileNode → Nat
  | .mk _ _ _ _ _ _ ca _ => ca

def FileNode.modified_at : FileNode → Nat
  | .mk _ _ _ _ _ _ _ m => m

/-- Replace the `children` and `modified_at` fields (the two fields the
Rust code mutates through `&mut` references). -/
def FileNode.withChildrenAt (n : FileNode) (cs : List (String × FileNode))
    (m : Nat) : FileNode :=
  match n with
  | .mk nm t c _ p cb ca _ => .mk nm t c cs p cb ca m

/-- `HashMap::get` on the children map. -/
def childGet (cs : List (String × FileNode)) (key : String) :
    Option FileNode :=
  (cs.find? (fun c => c.1 == key)).map (·.2)

/-- `HashMap::contains_key` on the children map. -/
def childContains (cs : List (String × FileNode)) (key : String) : Bool :=
  cs.any (fun c => c.1 == key)

/-- `HashMap::insert` on the children map: replace the entry for `key`
when present, otherwise append. -/
def childInsert (cs : List (String × FileNode)) (key : String)
    (v : FileNode) : List (String × FileNode) :=
  match cs with
  | [] => [(key, v)]
  | c :: rest =>
    if c.1 == key then (key, v) :: rest else c :: childInsert rest key v

/-- `HashMap::remove` on the children map (removes the entry found by
lookup, i.e. the first matching key). -/
def childRemove (cs : List (String × FileNode)) (key : String) :
    List (String × FileNode) :=
  match cs with
  | [] => []
  | c :: rest => if c.1 == key then rest else c :: childRemove rest key

/-- Writing a new value through the `&mut FileNode` obtained by
`HashMap::get_mut(key)`: replaces the entry the lookup found. -/
def childSet (cs : List (String × FileNode)) (key : String)
    (v : FileNode) : List (String × FileNode) :=
  match cs with
  | [] => []
  | c :: rest => if c.1 == key then (key, v) :: rest else c :: childSet rest key v

/-- `FileNode::get_child`. -/
def FileNode.get_child (n : FileNode) (name : String) : Option FileNode :=
  childGet n.children name

/-- `FileNode::new_directory` (the clock read becomes `now`). -/
def FileNode.new_directory (name owner : String) (now : Nat) : FileNode :=
  .mk name .Directory none [] (Permissions.new owner) owner now now

/-- `FileNode::new_file`. -/
def FileNode.new_file (name content owner : String) (now : Nat) : FileNode :=
  .mk name .File (some content) [] (Permissions.new owner) owner now now

/-- `FileNode::add_child`: refuses on a non-directory, otherwise inserts
the child and stamps `modified_at`.  Returned with the post-state so the
failure case's (absence of) mutation is part of the embedding. -/
def FileNode.add_child (n : FileNode) (child : FileNode) (now : Nat) :
    Except String Unit × FileNode :=
  if n.file_type ≠ FileType.Directory then
    (.error "Cannot add children to a file", n)
  else
    (.ok (), n.withChildrenAt (childInsert n.children child.name child) now)

/-- Lexicographic comparison of character lists by code point, the
order Rust's `Ord for String` (byte-wise UTF-8, which agrees with
code-point order) uses. -/
def lexLe : List Char → List Char → Bool
  | [], _ => true
  | _ :: _, [] => false
  | a :: as, b :: bs =>
    if Nat.blt a.toNat b.toNat then true
    else if Nat.blt b.toNat a.toNat then false
    else lexLe as bs

/-- String comparison used by `Vec::sort` on `Vec<String>`. -/
def strLe (a b : String) : Bool := lexLe a.data b.data

/-- Sorted insertion (auxiliary to the embedding of `Vec::sort`). -/
def insertSorted (a : String) : List String → List String
  | [] => [a]
  | b :: bs => if strLe a b then a :: b :: bs else b :: insertSorted a bs

/-- Embedding of `Vec::sort` on `Vec<String>`: a sort by `strLe`.  Its
output agrees with the source's (stable, in-place) sort because a total
order on strings determines the sorted list up to identity of equal
elements. -/
def sortStrings : List String → List String
  | [] => []
  | a :: as => insertSorted a (sortStrings as)

/-- `FileNode::list_children`: names, directories suffixed `/`, sorted.
The output is independent of the `HashMap` iteration order because the
sorted list of a multiset of strings is unique. -/
def FileNode.list_children (n : FileNode) : List String :=
  sortStrings (n.children.map (fun c =>
    match c.2.file_type with
    | .Directory => c.1 ++ "/"
    | .File => c.1))

/-- `FileNode::update_content`. -/
def FileNode.update_content (n : FileNode) (content : String) (now : Nat) :
    Except String Unit × FileNode :=
  if n.file_type ≠ FileType.File then
    (.error "Cannot set content on a directory", n)
  else
    match n with
    | .mk nm t _ cs p cb ca _ => (.ok (), .mk nm t (some content) cs p cb ca now)

/-- `FileSystem` from `src/filesystem.rs`. -/
structure FileSystem where
  root : FileNode

/-- `FileSystem::new`. -/
def FileSystem.new (owner : String) (now : Nat) : FileSystem :=
  ⟨FileNode.new_directory "/" owner now⟩

/-- The loop body of `resolve_path`: walk the split path segments,
skipping empty ones, descending through `get_child`. -/
def resolveParts : FileNode → List String → Option FileNode
  | node, [] => some node
  | node, p :: rest =>
    if p = "" then resolveParts node rest
    else
      match node.get_child p with
      | none => none
      | some c => resolveParts c rest

/-- The same walk through `resolve_path_mut`, followed by applying `f`
at the resolved node and writing the returned node back along the path
(the effect of mutating through the returned `&mut` reference). -/
def updateParts {α : Type} (f : FileNode → α × FileNode) :
    FileNode → List String → Option (α × FileNode)
  | node, [] => some (f node)
  | node, p :: rest =>
    if p = "" then updateParts f node rest
    else
      match node.get_child p with
      | none => none
      | some c =>
        match updateParts f c rest with
        | none => none
        | some (a, c') =>
          some (a, node.withChildrenAt (childSet node.children p c') node.modified_at)

/-- The segments `path.trim_start_matches('/').split('/')` iterated by
`resolve_path` and `resolve_path_mut`. -/
def pathParts (path : String) : List String :=
  (splitOnChar '/' (trimLeading '/' path.data)).map (fun l => ⟨l⟩)

/-- `FileSystem::resolve_path`. -/
def FileSystem.resolve_path (fs : FileSystem) (path : String) :
    Option FileNode :=
  if path = "/" then some fs.root
  else resolveParts fs.root (pathParts path)

/-- `FileSystem::resolve_path_mut` followed by mutation through the
reference: apply `f` at the resolved node, producing `f`'s first
component and the new root. -/
def FileSystem.update_path {α : Type} (fs : FileSystem) (path : String)
    (f : FileNode → α × FileNode) : Option (α × FileNode) :=
  if path = "/" then some (f fs.root)
  else updateParts f fs.root (pathParts path)

/-- `FileSystem::split_path`. -/
def split_path (path : String) : Except String (String × String) :=
  let pd := trimTrailing '/' path.data
  if pd = ['/'] then .error "Cannot create root directory"
  else
    let parts := splitOnChar '/' (trimLeading '/' pd)
    if parts.isEmpty || parts.getLastD [] = [] then .error "Invalid path"
    else
      let file_name : String := ⟨parts.getLastD []⟩
      let parent_path : String :=
        if parts.length = 1 then "/" else ⟨'/' :: joinChar '/' parts.dropLast⟩
      .ok (parent_path, file_name)

/-- The body of `create_directory` applied at the resolved parent (the
permission check, the existence check and the `add_child` the source
performs through the `&mut` parent reference). -/
def createDirAt (dir_name owner : String) (now : Nat) (parent : FileNode) :
    Except String Unit × FileNode :=
  if ¬ parent.permissions.can_write owner then
    (.error "Permission denied: cannot write to parent directory", parent)
  else if childContains parent.children dir_name then
    (.error "Directory already exists", parent)
  else
    parent.add_child (FileNode.new_directory dir_name owner now) now

/-- `FileSystem::create_directory` (result paired with post-state). -/
def FileSystem.create_directory (fs : FileSystem) (path owner : String)
    (now : Nat) : Except String Unit × FileSystem :=
  match split_path path with
  | .error e => (.error e, fs)
  | .ok (parent_path, dir_name) =>
    match fs.update_path parent_path (createDirAt dir_name owner now) with
    | none => (.error ("Parent directory not found: " ++ parent_path), fs)
    | some (r, root') => (r, ⟨root'⟩)

/-- The body of `create_file` applied at the resolved parent: no
existence check, `add_child` overwrites any existing child. -/
def createFileAt (file_name content owner : String) (now : Nat)
    (parent : FileNode) : Except String Unit × FileNode :=
  if ¬ parent.permissions.can_write owner then
    (.error "Permission denied: cannot write to parent directory", parent)
  else
    parent.add_child (FileNode.new_file file_name content owner now) now

/-- `FileSystem::create_file` (result paired with post-state). -/
def FileSystem.create_file (fs : FileSystem) (path content owner : String)
    (now : Nat) : Except String Unit × FileSystem :=
  match split_path path with
  | .error e => (.error e, fs)
  | .ok (parent_path, file_name) =>
    match fs.update_path parent_path (createFileAt file_name content owner now) with
    | none => (.error ("Parent directory not found: " ++ parent_path), fs)
    | some (r, root') => (r, ⟨root'⟩)

/-- The body of `remove` applied at the resolved parent.  The source's
`contains_key` guard followed by `get(..).unwrap()` is embedded as a
single lookup (`contains_key` and `get` agree on the children map). -/
def removeAt (path item_name user : String) (now : Nat) (parent : FileNode) :
    Except String Unit × FileNode :=
  if ¬ parent.permissions.can_write user then
    (.error "Permission denied: cannot write to parent directory", parent)
  else
    match parent.get_child item_name with
    | none => (.error ("File or directory not found: " ++ path), parent)
    | some item =>
      if item.permissions.owner ≠ user ∧
          ¬ parent.permissions.can_write user then
        (.error "Permission denied: cannot remove item", parent)
      else
        (.ok (),
          parent.withChildrenAt (childRemove parent.children item_name) now)

/-- `FileSystem::remove` (result paired with post-state). -/
def FileSystem.remove (fs : FileSystem) (path user : String) (now : Nat) :
    Except String Unit × FileSystem :=
  if path = "/" then (.error "Cannot remove root directory", fs)
  else
    match split_path path with
    | .error e => (.error e, fs)
    | .ok (parent_path, item_name) =>
      match fs.update_path parent_path (removeAt path item_name user now) with
      | none => (.error ("Parent directory not found: " ++ parent_path), fs)
      | some (r, root') => (r, ⟨root'⟩)

/-- `Message` from `src/message.rs` (`timestamp` as `Nat`). -/
structure Message where
  sender_address : String
  recipient_address : String
  memo_text : String
  txid : Option String
  signature : Option String
  timestamp : Option Nat

/-- `Message::new`. -/
def Message.new (sender recipient memo : String) : Message :=
  ⟨sender, recipient, memo, none, none, none⟩

/-- A `HashMap<String, String>` lookup as an association-list lookup. -/
def mapGet (m : List (String × String)) (key : String) : Option String :=
  (m.find? (fun c => c.1 == key)).map (·.2)

/-- `HashMap<String, String>::contains_key`. -/
def mapContains (m : List (String × String)) (key : String) : Bool :=
  m.any (fun c => c.1 == key)

/-- `HashMap<String, String>::insert` (replace or append). -/
def mapInsert (m : List (String × String)) (key v : String) :
    List (String × String) :=
  match m with
  | [] => [(key, v)]
  | c :: rest =>
    if c.1 == key then (key, v) :: rest else c :: mapInsert rest key v

/-- `HashMap<String, String>::remove`. -/
def mapRemove (m : List (String × String)) (key : String) :
    List (String × String) :=
  match m with
  | [] => []
  | c :: rest => if c.1 == key then rest else c :: mapRemove rest key

/-- Modelled from the spec: the Challenge/Session Registry
(`AuthenticationFlow`, whose source file is not part of the provided
sources).  Per §4.3 it stores, keyed by sender identity, the pending
challenge token and the reply identity, overwriting any prior pending
entry for that sender, and `get_reply_address` is a pure lookup of the
stored reply identity.  The token itself is generated from a hash of
the sender and the wall clock; it is supplied per call as `gen`. -/
def authInsert (m : List (String × String × String))
    (sender challenge reply : String) : List (String × String × String) :=
  match m with
  | [] => [(sender, challenge, reply)]
  | c :: rest =>
    if c.1 == sender then (sender, challenge, reply) :: rest
    else c :: authInsert rest sender challenge reply

/-- Modelled from the spec: `session_manager.get_reply_address`, the
pure lookup of the reply identity recorded at registration. -/
def authGetReply (m : List (String × String × String)) (sender : String) :
    Option String :=
  (m.find? (fun c => c.1 == sender)).map (·.2.2)

/-- `Coordinator` from `src/coordinator.rs`; `auth_flow` holds the
spec-modelled Challenge/Session Registry state. -/
structure Coordinator where
  auth_flow : List (String × String × String)
  verified_users : List (String × String)
  pending_challenges : List (String × String)
  session_mappings : List (String × String)
  filesystem : FileSystem

/-- `Coordinator::new` (session timeout is unused by the embedded
operations; the root creation clock read becomes `now`). -/
def Coordinator.new (now : Nat) : Coordinator :=
  { auth_flow := []
    verified_users := []
    pending_challenges := []
    session_mappings := []
    filesystem := FileSystem.new "coordinator" now }

/-- `Coordinator::handle_ls_command`. -/
def Coordinator.handle_ls_command (c : Coordinator) (user_id path : String) :
    Except String String :=
  match c.filesystem.resolve_path path with
  | none => .error ("Path not found: " ++ path)
  | some node =>
    if ¬ node.permissions.can_read user_id then
      .error "Permission denied: cannot read directory"
    else if node.file_type ≠ FileType.Directory then
      .error "Not a directory"
    else
      let listing := node.list_children
      if listing.isEmpty then .ok "(empty directory)"
      else .ok (String.intercalate "  " listing)

/-- `Coordinator::handle_cat_command`. -/
def Coordinator.handle_cat_command (c : Coordinator) (user_id path : String) :
    Except String String :=
  match c.filesystem.resolve_path path with
  | none => .error ("File not found: " ++ path)
  | some node =>
    if ¬ node.permissions.can_read user_id then
      .error "Permission denied: cannot read file"
    else if node.file_type ≠ FileType.File then
      .error "Not a file"
    else
      .ok (node.content.getD "(empty file)")

/-- `Coordinator::handle_mkdir_command`. -/
def Coordinator.handle_mkdir_command (c : Coordinator)
    (user_id path : String) (now : Nat) : Except String String × Coordinator :=
  match c.filesystem.create_directory path user_id now with
  | (.ok (), fs') => (.ok ("Directory created: " ++ path), { c with filesystem := fs' })
  | (.error e, fs') => (.error e, { c with filesystem := fs' })

/-- `Coordinator::handle_touch_command`. -/
def Coordinator.handle_touch_command (c : Coordinator)
    (user_id path content : String) (now : Nat) :
    Except String String × Coordinator :=
  match c.filesystem.create_file path content user_id now with
  | (.ok (), fs') => (.ok ("File created: " ++ path), { c with filesystem := fs' })
  | (.error e, fs') => (.error e, { c with filesystem := fs' })

/-- `Coordinator::handle_authenticated_command`.  Under each
`starts_with` guard the Rust `strip_prefix(..).unwrap()` is the drop of
the guard's length, which is how it is embedded. -/
def Coordinator.handle_authenticated_command (c : Coordinator)
    (message : Message) (now : Nat) : Except String String × Coordinator :=
  let user_id := message.sender_address
  if starts_with message.memo_text "ls " then
    (c.handle_ls_command user_id ⟨message.memo_text.data.drop 3⟩, c)
  else if starts_with message.memo_text "cat " then
    (c.handle_cat_command user_id ⟨message.memo_text.data.drop 4⟩, c)
  else if starts_with message.memo_text "mkdir " then
    c.handle_mkdir_command user_id ⟨message.memo_text.data.drop 6⟩ now
  else if starts_with message.memo_text "touch " then
    match splitn3 ' ' message.memo_text with
    | _ :: path :: rest =>
      c.handle_touch_command user_id path (rest.getD 0 "") now
    | _ =>
      (.error "Unknown command. Try: ls <path>, cat <file>, mkdir <dir>, touch <file> [content]", c)
  else
    (.error "Unknown command. Try: ls <path>, cat <file>, mkdir <dir>, touch <file> [content]", c)

/-- `Coordinator::handle_authentication`; `gen` is the session id the
source derives from the sender, the wall clock and a domain tag. -/
def Coordinator.handle_authentication (c : Coordinator) (message : Message)
    (gen : String) : Except String String × Coordinator :=
  let parts := splitn2 ':' message.memo_text
  if parts.length ≠ 2 then
    (.error "Invalid auth format. Use AUTH:<signed_challenge>", c)
  else if (mapGet c.pending_challenges message.sender_address).isSome
      ∧ message.signature.isSome then
    let session_id := gen
    let reply_address :=
      (authGetReply c.auth_flow message.sender_address).getD
        message.sender_address
    (.ok ("Authentication successful. Session ID: " ++ session_id),
      { c with
        verified_users :=
          mapInsert c.verified_users message.sender_address reply_address
        session_mappings :=
          mapInsert c.session_mappings session_id reply_address
        pending_challenges :=
          mapRemove c.pending_challenges message.sender_address })
  else
    (.error "Authentication failed. Invalid signature or challenge.", c)

/-- `Coordinator::handle_registration`; `gen` is the challenge token
produced by the spec-modelled `initiate_authentication`. -/
def Coordinator.handle_registration (c : Coordinator) (message : Message)
    (gen : String) : Except String String × Coordinator :=
  let parts := splitn2 ':' message.memo_text
  if parts.length ≠ 2 then
    (.error "Invalid registration format. Use REGISTER:<reply_address>", c)
  else
    let reply_address := parts.getD 1 ""
    (.ok ("Registration initiated. Please sign and send: AUTH:" ++ gen),
      { c with
        auth_flow :=
          authInsert c.auth_flow message.sender_address gen reply_address
        pending_challenges :=
          mapInsert c.pending_challenges message.sender_address gen })

/-- `Coordinator::verify_sender_identity`. -/
def Coordinator.verify_sender_identity (c : Coordinator)
    (message : Message) : Bool :=
  mapContains c.verified_users message.sender_address
    && message.signature.isSome

/-- `Coordinator::process_incoming_message`. -/
def Coordinator.process_incoming_message (c : Coordinator)
    (message : Message) (gen : String) (now : Nat) :
    Except String String × Coordinator :=
  if starts_with message.memo_text "REGISTER:" then
    c.handle_registration message gen
  else if starts_with message.memo_text "AUTH:" then
    c.handle_authentication message gen
  else if c.verify_sender_identity message then
    c.handle_authenticated_command message now
  else
    (.error "Authentication required. Send REGISTER:<reply_address> first.", c)

/-- `Coordinator::get_reply_address_by_session`. -/
def Coordinator.get_reply_address_by_session (c : Coordinator)
    (session_id : String) : Option String :=
  mapGet c.session_mappings session_id

/-! ### Concrete states used by counterexamples, witnesses and the
spec's end-to-end scenarios -/

/-- A filesystem whose root is owned by `"o"` (default permissions, so
`public_write = false`) holding one file `f.txt` owned by `"a"`: the
owner of `/f.txt` cannot write the parent directory. -/
def permTraceFs : FileSystem :=
  ⟨.mk "/" .Directory none
    [("f.txt", FileNode.new_file "f.txt" "x" "a" 0)]
    (Permissions.new "o") "o" 0 0⟩

/-- The REGISTER message of the authentication trace. -/
def regMsg : Message := Message.new "s" "z" "REGISTER:r"

/-- An AUTH message presenting `tok`, with a signature marker. -/
def authMsg (tok : String) : Message :=
  { sender_address := "s"
    recipient_address := "z"
    memo_text := "AUTH:" ++ tok
    txid := none
    signature := some "sig"
    timestamp := none }

/-- State after a first REGISTER from `"s"` (challenge `tok1`). -/
def auth1 : Coordinator :=
  ((Coordinator.new 0).process_incoming_message regMsg "tok1" 0).2

/-- State after a second REGISTER from `"s"` before any AUTH: the
pending challenge is replaced by `tok2`. -/
def auth2 : Coordinator :=
  (auth1.process_incoming_message regMsg "tok2" 0).2

/-- An AUTH presenting the stale first challenge `tok1`, processed in
the state whose latest pending challenge is `tok2`. -/
def auth3 : Except String String × Coordinator :=
  auth2.process_incoming_message (authMsg "tok1") "sid1" 0

/-- A third REGISTER after the first successful AUTH. -/
def auth4 : Coordinator :=
  (auth3.2.process_incoming_message regMsg "tok3" 0).2

/-- A second successful AUTH for the already-verified sender `"s"`,
issuing the fresh session id `sid2`. -/
def auth5 : Except String String × Coordinator :=
  auth4.process_incoming_message (authMsg "tok3") "sid2" 0

/-- A coordinator whose root grants write to the verified user `"u"`
(as the source's tests do via `add_write_permission`). -/
def scenario0 : Coordinator :=
  { auth_flow := []
    verified_users := [("u", "r")]
    pending_challenges := []
    session_mappings := []
    filesystem :=
      ⟨.mk "/" .Directory none []
        { owner := "coordinator"
          read_users := ["coordinator"]
          write_users := ["coordinator", "u"]
          public_read := true
          public_write := false }
        "coordinator" 0 0⟩ }

/-- A signed command message from the verified user `"u"`. -/
def cmdMsg (memo : String) : Message :=
  { sender_address := "u"
    recipient_address := "z"
    memo_text := memo
    txid := none
    signature := some "sig"
    timestamp := none }

/-- Scenario state after `touch /f.txt hello`. -/
def scenario1 : Coordinator :=
  (scenario0.process_incoming_message (cmdMsg "touch /f.txt hello") "g" 1).2

/-- Scenario state after the overwriting `touch /f.txt world`. -/
def scenario2 : Coordinator :=
  (scenario1.process_incoming_message (cmdMsg "touch /f.txt world") "g" 2).2

/-- A filesystem with an existing file `/f.txt` (owned by the root
owner), for exercising the create-on-existing-child asymmetry. -/
def overwriteFs : FileSystem :=
  ((FileSystem.new "o" 0).create_file "/f.txt" "hello" "o" 1).2

/-- Listing scenario: `/home`, then `/home/b.txt`, `/home/a.txt` and the
subdirectory `/home/c`, all created by the root owner. -/
def listFs : FileSystem :=
  (((((FileSystem.new "o" 0).create_directory "/home" "o" 1).2.create_file
    "/home/b.txt" "B" "o" 2).2.create_file
    "/home/a.txt" "A" "o" 3).2.create_directory "/home/c" "o" 4).2

/-! ### Helper lemmas about the children map and path-directed update -/

theorem childSet_of_get {cs : List (String × FileNode)} {key : String}
    {c : FileNode} (h : childGet cs key = some c) : childSet cs key c = cs := by
  induction cs with
  | nil => simp [childGet] at h
  | cons hd tl ih =>
    by_cases hk : (hd.1 == key) = true
    · have hkey : hd.1 = key := eq_of_beq hk
      simp only [childGet, List.find?_cons, hk] at h
      simp at h
      simp only [childSet]
      rw [if_pos hk, ← hkey, ← h]
    · have hk' : (hd.1 == key) = false := by
        cases hb : (hd.1 == key) with
        | true => exact absurd hb hk
        | false => rfl
      simp only [childGet, List.find?_cons, hk'] at h
      simp only [childSet]
      rw [if_neg hk]
      rw [ih h]

theorem withChildrenAt_self (n : FileNode) :
    n.withChildrenAt n.children n.modified_at = n := by
  cases n
  rfl

theorem updateParts_fst {α : Type} (f : FileNode → α × FileNode) :
    ∀ (parts : List String) (node : FileNode),
      (updateParts f node parts).map Prod.fst =
        (resolveParts node parts).map (fun t => (f t).1) := by
  intro parts
  induction parts with
  | nil => intro node; rfl
  | cons p rest ih =>
    intro node
    by_cases hp : p = ""
    · simp [updateParts, resolveParts, hp, ih node]
    · simp only [updateParts, resolveParts, if_neg hp]
      cases hg : node.get_child p with
      | none => rfl
      | some c =>
        have hic := ih c
        cases hu : updateParts f c rest with
        | none =>
          rw [hu] at hic
          cases hr : resolveParts c rest with
          | none => simp [hu, hr]
          | some t => rw [hr] at hic; simp at hic
        | some pr =>
          obtain ⟨a, c'⟩ := pr
          rw [hu] at hic
          cases hr : resolveParts c rest with
          | none => rw [hr] at hic; simp at hic
          | some t =>
            rw [hr] at hic
            simp at hic
            simp [hu, hr, hic]

theorem updateParts_of_fix {α : Type} (f : FileNode → α × FileNode) :
    ∀ (parts : List String) (node t : FileNode),
      resolveParts node parts = some t → (f t).2 = t →
      updateParts f node parts = some ((f t).1, node) := by
  intro parts
  induction parts with
  | nil =>
    intro node t hres hfix
    simp [resolveParts] at hres
    subst hres
    simp only [updateParts]
    have hpair : f node = ((f node).1, (f node).2) := rfl
    rw [hpair, hfix]
  | cons p rest ih =>
    intro node t hres hfix
    by_cases hp : p = ""
    · simp [resolveParts, hp] at hres
      simp [updateParts, hp]
      exact ih node t hres hfix
    · simp only [resolveParts, if_neg hp] at hres
      cases hg : node.get_child p with
      | none => rw [hg] at hres; simp at hres
      | some c =>
        rw [hg] at hres
        simp only at hres
        simp only [updateParts, if_neg hp, hg]
        rw [ih c t hres hfix]
        simp [childSet_of_get hg, withChildrenAt_self]

theorem update_path_fst {α : Type} (fs : FileSystem) (p : String)
    (f : FileNode → α × FileNode) :
    (fs.update_path p f).map Prod.fst =
      (fs.resolve_path p).map (fun t => (f t).1) := by
  by_cases hp : p = "/"
  · simp [FileSystem.update_path, FileSystem.resolve_path, hp]
  · simp [FileSystem.update_path, FileSystem.resolve_path, hp,
      updateParts_fst]

theorem update_path_of_fix {α : Type} {fs : FileSystem} {p : String}
    {f : FileNode → α × FileNode} {t : FileNode}
    (hres : fs.resolve_path p = some t) (hfix : (f t).2 = t) :
    fs.update_path p f = some ((f t).1, fs.root) := by
  by_cases hp : p = "/"
  · simp [FileSystem.resolve_path, hp] at hres
    subst hres
    simp only [FileSystem.update_path, hp, if_pos]
    have hpair : f fs.root = ((f fs.root).1, (f fs.root).2) := rfl
    rw [hpair, hfix]
  · simp only [FileSystem.resolve_path, if_neg hp] at hres
    simp only [FileSystem.update_path, if_neg hp]
    exact updateParts_of_fix f _ fs.root t hres hfix

theorem update_path_of_resolve {α : Type} {fs : FileSystem} {p : String}
    {t : FileNode} (f : FileNode → α × FileNode)
    (hres : fs.resolve_path p = some t) :
    ∃ root', fs.update_path p f = some ((f t).1, root') := by
  have h := update_path_fst fs p f
  rw [hres] at h
  cases hu : fs.update_path p f with
  | none => rw [hu] at h; simp at h
  | some pr =>
    rw [hu] at h
    simp at h
    refine ⟨pr.2, ?_⟩
    rw [← h]

theorem update_path_err {α : Type} {fs : FileSystem} {p : String}
    {f : FileNode → α × FileNode} (P : α → Prop)
    (Hf : ∀ t, P (f t).1 → (f t).2 = t) {r : α} {root' : FileNode}
    (hu : fs.update_path p f = some (r, root')) (hr : P r) :
    root' = fs.root := by
  have h := update_path_fst fs p f
  rw [hu] at h
  cases hres : fs.resolve_path p with
  | none => rw [hres] at h; simp at h
  | some t =>
    rw [hres] at h
    simp at h
    have hfix := Hf t (h ▸ hr)
    have h2 := update_path_of_fix hres hfix
    rw [hu] at h2
    injection h2 with h2
    exact congrArg Prod.snd h2

theorem createDirAt_fix_or_ok (dn ow : String) (now : Nat) (t : FileNode) :
    (createDirAt dn ow now t).2 = t ∨ (createDirAt dn ow now t).1 = .ok () := by
  unfold createDirAt FileNode.add_child
  split_ifs <;> first | (left; rfl) | (right; rfl)

theorem createFileAt_fix_or_ok (fn content ow : String) (now : Nat)
    (t : FileNode) :
    (createFileAt fn content ow now t).2 = t ∨
      (createFileAt fn content ow now t).1 = .ok () := by
  unfold createFileAt FileNode.add_child
  split_ifs <;> first | (left; rfl) | (right; rfl)

theorem removeAt_fix_or_ok (path nm user : String) (now : Nat) (t : FileNode) :
    (removeAt path nm user now t).2 = t ∨
      (removeAt path nm user now t).1 = .ok () := by
  unfold removeAt
  cases hw : t.permissions.can_write user with
  | false => left; simp [hw]
  | true =>
    cases hg : t.get_child nm with
    | none => left; simp [hw, hg]
    | some item =>
      by_cases h2 : item.permissions.owner ≠ user ∧
          ¬ t.permissions.can_write user = true
      · exact absurd h2 (by simp [hw])
      · right; simp [hw, hg, h2]

/-! ### Association-map lemmas -/

theorem mapGet_insert_self (m : List (String × String)) (k v : String) :
    mapGet (mapInsert m k v) k = some v := by
  induction m with
  | nil => simp [mapGet, mapInsert, List.find?_cons]
  | cons hd tl ih =>
    by_cases hk : (hd.1 == k) = true
    · simp only [mapInsert, hk, if_pos]
      simp [mapGet, List.find?_cons]
    · have hk' : (hd.1 == k) = false := by
        cases hb : (hd.1 == k) with
        | true => exact absurd hb hk
        | false => rfl
      simp only [mapInsert, hk', Bool.false_eq_true, if_neg, if_false]
      simp only [mapGet, List.find?_cons, hk']
      exact ih

theorem mapGet_insert_ne (m : List (String × String)) (k v k' : String)
    (h : k' ≠ k) : mapGet (mapInsert m k v) k' = mapGet m k' := by
  have hkk : (k == k') = false := by
    cases hb : (k == k') with
    | true => exact absurd (eq_of_beq hb).symm h
    | false => rfl
  induction m with
  | nil => simp [mapGet, mapInsert, List.find?_cons, hkk]
  | cons hd tl ih =>
    by_cases hk : (hd.1 == k) = true
    · have hdk : hd.1 = k := eq_of_beq hk
      simp only [mapInsert, hk, if_pos]
      simp only [mapGet, List.find?_cons, hkk]
      rw [show (hd.1 == k') = false from hdk ▸ hkk]
    · have hk' : (hd.1 == k) = false := by
        cases hb : (hd.1 == k) with
        | true => exact absurd hb hk
        | false => rfl
      simp only [mapInsert, hk', Bool.false_eq_true, if_neg, if_false]
      simp only [mapGet, List.find?_cons]
      cases hb : (hd.1 == k') with
      | true => rfl
      | false => exact ih

/-! ### String-parsing lemmas -/

theorem splitFirst_append_of_not_mem (c : Char) :
    ∀ (a t : List Char), (∀ x ∈ a, x ≠ c) →
      splitFirst c (a ++ c :: t) = some (a, t) := by
  intro a
  induction a with
  | nil => intro t _; simp [splitFirst]
  | cons x xs ih =>
    intro t h
    have hx : x ≠ c := h x (List.mem_cons_self x xs)
    simp only [List.cons_append, splitFirst, if_neg hx, List.append_eq]
    rw [ih t (fun y hy => h y (List.mem_cons_of_mem x hy))]
    rfl

theorem isPre_append : ∀ (p l : List Char), isPre p l = true →
    l = p ++ l.drop p.length := by
  intro p
  induction p with
  | nil => intro l _; simp
  | cons a as ih =>
    intro l h
    cases l with
    | nil => simp [isPre] at h
    | cons b bs =>
      simp only [isPre, Bool.and_eq_true] at h
      have hab : a = b := eq_of_beq h.1
      have := ih bs h.2
      simp only [List.length_cons, List.drop_succ_cons]
      rw [hab, List.cons_append, ← this]

/-- A memo starting with `AUTH:` does not start with `REGISTER:`. -/
theorem not_register_of_auth {s : String} (h : starts_with s "AUTH:" = true) :
    starts_with s "REGISTER:" = false := by
  unfold starts_with at h ⊢
  rw [isPre_append _ _ h]
  rfl

theorem trimLeading_ne_cons (c : Char) :
    ∀ (l t : List Char), trimLeading c l ≠ c :: t := by
  intro l
  induction l with
  | nil => intro t h; simp [trimLeading] at h
  | cons x xs ih =>
    intro t h
    by_cases hx : x = c
    · rw [trimLeading, if_pos hx] at h
      exact ih t h
    · rw [trimLeading, if_neg hx] at h
      exact hx (List.cons.injEq _ _ _ _ ▸ h).1

/-! ### Sortedness of the embedded `Vec::sort` -/

theorem lexLe_total : ∀ a b : List Char, lexLe a b = true ∨ lexLe b a = true := by
  intro a
  induction a with
  | nil => intro b; left; rfl
  | cons x xs ih =>
    intro b
    cases b with
    | nil => right; rfl
    | cons y ys =>
      cases h1 : Nat.blt x.toNat y.toNat with
      | true => left; simp [lexLe, h1]
      | false =>
        cases h2 : Nat.blt y.toNat x.toNat with
        | true => right; simp [lexLe, h2]
        | false =>
          have := ih ys
          cases this with
          | inl hl => left; simp [lexLe, h1, h2, hl]
          | inr hr => right; simp [lexLe, h1, h2, hr]

theorem lexLe_trans : ∀ a b c : List Char,
    lexLe a b = true → lexLe b c = true → lexLe a c = true := by
  intro a
  induction a with
  | nil => intro b c _ _; rfl
  | cons x xs ih =>
    intro b c h1 h2
    cases b with
    | nil => simp [lexLe] at h1
    | cons y ys =>
      cases c with
      | nil => simp [lexLe] at h2
      | cons z zs =>
        simp only [lexLe, Nat.blt_eq] at h1 h2 ⊢
        by_cases hxy : x.toNat < y.toNat
        · by_cases hyz : y.toNat < z.toNat
          · rw [if_pos (show x.toNat < z.toNat by omega)]
          · rw [if_neg hyz] at h2
            by_cases hzy : z.toNat < y.toNat
            · rw [if_pos hzy] at h2
              exact absurd h2 (by simp)
            · rw [if_pos (show x.toNat < z.toNat by omega)]
        · rw [if_neg hxy] at h1
          by_cases hyx : y.toNat < x.toNat
          · rw [if_pos hyx] at h1
            exact absurd h1 (by simp)
          · rw [if_neg hyx] at h1
            by_cases hyz : y.toNat < z.toNat
            · rw [if_pos (show x.toNat < z.toNat by omega)]
            · rw [if_neg hyz] at h2
              by_cases hzy : z.toNat < y.toNat
              · rw [if_pos hzy] at h2
                exact absurd h2 (by simp)
              · rw [if_neg hzy] at h2
                rw [if_neg (show ¬ x.toNat < z.toNat by omega),
                  if_neg (show ¬ z.toNat < x.toNat by omega)]
                exact ih ys zs h1 h2

theorem strLe_total (a b : String) : strLe a b = true ∨ strLe b a = true :=
  lexLe_total a.data b.data

theorem strLe_trans {a b c : String} (h1 : strLe a b = true)
    (h2 : strLe b c = true) : strLe a c = true :=
  lexLe_trans a.data b.data c.data h1 h2

theorem mem_insertSorted : ∀ (l : List String) (x a : String),
    x ∈ insertSorted a l → x = a ∨ x ∈ l := by
  intro l
  induction l with
  | nil => intro x a h; simp [insertSorted] at h; exact Or.inl h
  | cons b bs ih =>
    intro x a h
    by_cases hab : strLe a b = true
    · rw [insertSorted, if_pos hab] at h
      rcases List.mem_cons.mp h with h | h
      · exact Or.inl h
      · exact Or.inr h
    · rw [insertSorted, if_neg hab] at h
      rcases List.mem_cons.mp h with h | h
      · exact Or.inr (h ▸ List.mem_cons_self _ _)
      · rcases ih x a h with h' | h'
        · exact Or.inl h'
        · exact Or.inr (List.mem_cons_of_mem _ h')

theorem pairwise_insertSorted (a : String) :
    ∀ (l : List String),
      List.Pairwise (fun x y => strLe x y = true) l →
      List.Pairwise (fun x y => strLe x y = true) (insertSorted a l) := by
  intro l
  induction l with
  | nil => intro _; simp [insertSorted]
  | cons b bs ih =>
    intro h
    rcases List.pairwise_cons.mp h with ⟨hb, hbs⟩
    by_cases hab : strLe a b = true
    · rw [insertSorted, if_pos hab]
      refine List.pairwise_cons.mpr ⟨?_, h⟩
      intro x hx
      rcases List.mem_cons.mp hx with hx | hx
      · exact hx ▸ hab
      · exact strLe_trans hab (hb x hx)
    · rw [insertSorted, if_neg hab]
      refine List.pairwise_cons.mpr ⟨?_, ih hbs⟩
      intro x hx
      rcases mem_insertSorted bs x a hx with h' | h'
      · rw [h']
        rcases strLe_total a b with h'' | h''
        · exact absurd h'' hab
        · exact h''
      · exact hb x h'

theorem sortStrings_pairwise : ∀ l : List String,
    List.Pairwise (fun x y => strLe x y = true) (sortStrings l) := by
  intro l
  induction l with
  | nil => simp [sortStrings]
  | cons a as ih => exact pairwise_insertSorted a _ ih

/-! ### Claim theorems -/

/-- C7: `resolvePath("/")` returns the root node; empty segments from
repeated or trailing slashes are skipped; resolution returns `none` as
soon as a segment is not a child of the current node, and descending
into a File (whose children are empty per the data model) yields the
same `none` outcome as a missing path. -/
theorem C7_resolve_path_semantics :
    (∀ fs : FileSystem, fs.resolve_path "/" = some fs.root)
    ∧ (∀ (node : FileNode) (parts : List String),
        resolveParts node (parts.filter (fun s => s != "")) =
          resolveParts node parts)
    ∧ (∀ (node : FileNode) (p : String) (rest : List String), p ≠ "" →
        node.get_child p = none → resolveParts node (p :: rest) = none)
    ∧ (∀ (node : FileNode) (p : String) (rest : List String),
        node.file_type = FileType.File → node.children = [] → p ≠ "" →
        resolveParts node (p :: rest) = none) := by
  refine ⟨fun fs => rfl, ?_, ?_, ?_⟩
  · intro node parts
    induction parts generalizing node with
    | nil => rfl
    | cons p rest ih =>
      by_cases hp : p = ""
      · subst hp
        rw [show ("" :: rest).filter (fun s => s != "") =
          rest.filter (fun s => s != "") from by simp]
        rw [ih node]
        rw [show resolveParts node ("" :: rest) = resolveParts node rest from by
          rw [resolveParts, if_pos rfl]]
      · have hp' : (p != "") = true := by simp [hp]
        rw [show (p :: rest).filter (fun s => s != "") =
          p :: rest.filter (fun s => s != "") from by simp [hp']]
        rw [resolveParts, resolveParts, if_neg hp, if_neg hp]
        cases hg : node.get_child p with
        | none => rfl
        | some c => exact ih c
  · intro node p rest hp hg
    rw [resolveParts, if_neg hp, hg]
  · intro node p rest _ hch hp
    rw [resolveParts, if_neg hp,
      show node.get_child p = none from by
        simp [FileNode.get_child, hch, childGet]]

/-- C7 witness: a missing child and a descent into a file both resolve
to `none`. -/
theorem C7_witness :
    resolveParts (FileNode.new_directory "d" "o" 0) ["x"] = none
    ∧ resolveParts (FileNode.new_file "f" "x" "o" 0) ["y"] = none :=
  ⟨C7_resolve_path_semantics.2.2.1 (FileNode.new_directory "d" "o" 0) "x" []
      (by decide) rfl,
    C7_resolve_path_semantics.2.2.2 (FileNode.new_file "f" "x" "o" 0) "y" []
      rfl rfl (by decide)⟩

/-- Whether a `split_path` result is the `CannotCreateRoot` rejection
(`"Cannot create root directory"`). -/
def isCannotCreateRoot : Except String (String × String) → Bool
  | .error e => e == "Cannot create root directory"
  | .ok _ => false

/-- C8: trailing slashes are insignificant to `split_path`, but the
bare root path `/` is rejected with the error `"Invalid path"`, not
with `"Cannot create root directory"`: the `CannotCreateRoot` branch is
unreachable (on every input) because trailing-slash trimming turns
`"/"` into `""` before the root check runs. -/
theorem C8_split_path_root_behavior :
    split_path "/" = .error "Invalid path"
    ∧ (∀ path : String, split_path (path ++ "/") = split_path path)
    ∧ (∀ path : String, isCannotCreateRoot (split_path path) = false) := by
  refine ⟨rfl, ?_, ?_⟩
  · intro path
    have hd : trimTrailing '/' (path ++ "/").data =
        trimTrailing '/' path.data := by
      rw [String.data_append]
      show trimTrailing '/' (path.data ++ ['/']) = trimTrailing '/' path.data
      unfold trimTrailing
      rw [List.reverse_append]
      rw [show (['/'] : List Char).reverse ++ path.data.reverse =
        '/' :: path.data.reverse from by simp]
      rw [show trimLeading '/' ('/' :: path.data.reverse) =
        trimLeading '/' path.data.reverse from by
          rw [trimLeading, if_pos rfl]]
    simp only [split_path]
    rw [hd]
  · intro path
    simp only [split_path]
    by_cases hr : trimTrailing '/' path.data = ['/']
    · exfalso
      unfold trimTrailing at hr
      have : trimLeading '/' path.data.reverse = ['/'] := by
        have := congrArg List.reverse hr
        simpa using this
      exact trimLeading_ne_cons '/' path.data.reverse [] this
    · rw [if_neg hr]
      cases hb : ((splitOnChar '/' (trimLeading '/'
          (trimTrailing '/' path.data))).isEmpty ||
          decide ((splitOnChar '/' (trimLeading '/'
            (trimTrailing '/' path.data))).getLastD [] = [])) with
      | true => rfl
      | false => rfl

/-- C9: `list_children` is always sorted ascending with directories
suffixed by `/`, an empty directory lists as the empty sequence, and
the spec's concrete scenario (`/home/b.txt`, `/home/a.txt`, then the
subdirectory `/home/c`) lists as `["a.txt", "b.txt", "c/"]`. -/
theorem C9_list_children_sorted :
    (∀ n : FileNode,
      List.Pairwise (fun a b => strLe a b = true) n.list_children)
    ∧ (∀ n : FileNode, n.children = [] → n.list_children = [])
    ∧ (listFs.resolve_path "/home").map FileNode.list_children =
        some ["a.txt", "b.txt", "c/"] := by
  refine ⟨fun n => sortStrings_pairwise _, ?_, rfl⟩
  intro n h
  unfold FileNode.list_children
  rw [h]
  rfl

/-- C9 witness: an empty directory yields the empty listing. -/
theorem C9_witness : (FileNode.new_directory "d" "o" 0).list_children = [] :=
  C9_list_children_sorted.2.1 (FileNode.new_directory "d" "o" 0) rfl

/-- C10: every message whose memo starts with `REGISTER:` is processed
successfully — the `MalformedRegistration` branch is unreachable since
the memo always contains a colon — and the registered reply identity is
everything after the first colon (the empty string for the bare memo
`REGISTER:`). -/
theorem C10_register_always_succeeds :
    ∀ (c : Coordinator) (msg : Message) (gen : String) (now : Nat),
      starts_with msg.memo_text "REGISTER:" = true →
      c.process_incoming_message msg gen now =
        (.ok ("Registration initiated. Please sign and send: AUTH:" ++ gen),
          { c with
            auth_flow := authInsert c.auth_flow msg.sender_address gen
              ⟨msg.memo_text.data.drop 9⟩
            pending_challenges :=
              mapInsert c.pending_challenges msg.sender_address gen }) := by
  intro c msg gen now h
  have hdata := isPre_append _ _ h
  have hs : splitn2 ':' msg.memo_text =
      ["REGISTER", ⟨msg.memo_text.data.drop 9⟩] := by
    unfold splitn2
    have h9 : splitFirst ':' ("REGISTER:".data ++ msg.memo_text.data.drop 9) =
        some ("REGISTER".data, msg.memo_text.data.drop 9) :=
      splitFirst_append_of_not_mem ':' "REGISTER".data _ (by decide)
    rw [show msg.memo_text.data = "REGISTER:".data ++
      msg.memo_text.data.drop 9 from hdata]
    rw [h9]
    rfl
  unfold Coordinator.process_incoming_message
  rw [if_pos h]
  unfold Coordinator.handle_registration
  rw [hs]
  rfl

/-- C10 witness: the bare memo `REGISTER:` succeeds and registers the
empty reply identity. -/
theorem C10_witness :
    (Coordinator.new 0).process_incoming_message
        (Message.new "s" "z" "REGISTER:") "tk" 0 =
      (.ok "Registration initiated. Please sign and send: AUTH:tk",
        { auth_flow := [("s", "tk", "")]
          verified_users := []
          pending_challenges := [("s", "tk")]
          session_mappings := []
          filesystem := FileSystem.new "coordinator" 0 }) := by
  rw [C10_register_always_succeeds (Coordinator.new 0)
    (Message.new "s" "z" "REGISTER:") "tk" 0 rfl]
  rfl

/-- C3: a message that is neither a REGISTER nor an AUTH is routed to
filesystem command handling exactly when the sender is in the
verified-sender registry and the signature marker is present; otherwise
the result is the authentication-required error, whatever the prior
state. -/
theorem C3_command_gate :
    ∀ (c : Coordinator) (msg : Message) (gen : String) (now : Nat),
      starts_with msg.memo_text "REGISTER:" = false →
      starts_with msg.memo_text "AUTH:" = false →
      c.process_incoming_message msg gen now =
        (if (mapContains c.verified_users msg.sender_address
            && msg.signature.isSome) = true
          then c.handle_authenticated_command msg now
          else (.error
            "Authentication required. Send REGISTER:<reply_address> first.",
            c)) := by
  intro c msg gen now h1 h2
  unfold Coordinator.process_incoming_message
  rw [if_neg (by simp [h1]), if_neg (by simp [h2])]
  rfl

/-- C3 witness: an unauthenticated `ls /` is rejected with the
authentication-required error. -/
theorem C3_witness :
    (Coordinator.new 0).process_incoming_message
        (Message.new "s" "z" "ls /") "g" 0 =
      (.error "Authentication required. Send REGISTER:<reply_address> first.",
        Coordinator.new 0) := by
  rw [C3_command_gate (Coordinator.new 0) (Message.new "s" "z" "ls /")
    "g" 0 rfl rfl]
  rfl

/-- C2 counterexample: after two REGISTER messages from `"s"` the
latest pending challenge is `tok2`, yet an AUTH presenting the stale
first token `tok1` succeeds (the claim says it must fail). -/
theorem C2_counterexample :
    mapGet auth2.pending_challenges "s" = some "tok2"
    ∧ auth3.1 = .ok "Authentication successful. Session ID: sid1" :=
  ⟨rfl, rfl⟩

/-- C2 (amended): an AUTH message succeeds exactly when some pending
challenge exists for the sender and the signature marker is present;
the presented credential is never compared against the stored
challenge token, so a stale token is accepted as readily as the latest
one. -/
theorem C2_auth_ignores_token :
    ∀ (c : Coordinator) (msg : Message) (gen : String) (now : Nat),
      starts_with msg.memo_text "AUTH:" = true →
      (c.process_incoming_message msg gen now).1 =
        (if (mapGet c.pending_challenges msg.sender_address).isSome
            ∧ msg.signature.isSome
          then .ok ("Authentication successful. Session ID: " ++ gen)
          else .error "Authentication failed. Invalid signature or challenge.") := by
  intro c msg gen now h
  unfold Coordinator.process_incoming_message
  rw [if_neg (by simp [not_register_of_auth h]), if_pos h]
  have hdata := isPre_append _ _ h
  have hs : (splitn2 ':' msg.memo_text).length = 2 := by
    unfold splitn2
    have h5 : splitFirst ':' ("AUTH:".data ++ msg.memo_text.data.drop 5) =
        some ("AUTH".data, msg.memo_text.data.drop 5) :=
      splitFirst_append_of_not_mem ':' "AUTH".data _ (by decide)
    rw [show msg.memo_text.data = "AUTH:".data ++
      msg.memo_text.data.drop 5 from hdata]
    rw [h5]
    rfl
  unfold Coordinator.handle_authentication
  rw [if_neg (by simp [hs])]
  by_cases hc : (mapGet c.pending_challenges msg.sender_address).isSome
      ∧ msg.signature.isSome
  · rw [if_pos hc, if_pos hc]
  · rw [if_neg hc, if_neg hc]

/-- C2 witness: the amended characterization evaluated on the stale
token trace state. -/
theorem C2_witness :
    (auth2.process_incoming_message (authMsg "tok1") "sid1" 0).1 =
      .ok "Authentication successful. Session ID: sid1" := by
  rw [C2_auth_ignores_token auth2 (authMsg "tok1") "sid1" 0 rfl]
  rfl

/-- C4 counterexample: a second successful AUTH for the already
verified sender `"s"` issues `sid2`, while the previously issued
`sid1` remains a live entry of the session-id registry (the claim says
it no longer is). -/
theorem C4_counterexample :
    auth3.1 = .ok "Authentication successful. Session ID: sid1"
    ∧ auth5.1 = .ok "Authentication successful. Session ID: sid2"
    ∧ mapGet auth5.2.session_mappings "sid1" = some "r"
    ∧ mapGet auth5.2.session_mappings "sid2" = some "r" :=
  ⟨rfl, rfl, rfl, rfl⟩

/-- C4 (amended): a new successful AUTH inserts an additional session
mapping under the freshly generated session id and leaves every
previously issued session id live: session mappings accumulate and are
never replaced (only `verified_users` is overwritten per sender). -/
theorem C4_sessions_accumulate :
    ∀ (c : Coordinator) (msg : Message) (gen : String) (now : Nat)
      (s0 r0 : String),
      starts_with msg.memo_text "AUTH:" = true →
      (mapGet c.pending_challenges msg.sender_address).isSome = true →
      msg.signature.isSome = true →
      mapGet c.session_mappings s0 = some r0 →
      s0 ≠ gen →
      mapGet (c.process_incoming_message msg gen now).2.session_mappings s0 =
          some r0
      ∧ mapGet (c.process_incoming_message msg gen now).2.session_mappings gen =
          some ((authGetReply c.auth_flow msg.sender_address).getD
            msg.sender_address) := by
  intro c msg gen now s0 r0 h hp hsig hs0 hne
  unfold Coordinator.process_incoming_message
  rw [if_neg (by simp [not_register_of_auth h]), if_pos h]
  have hdata := isPre_append _ _ h
  have hs : (splitn2 ':' msg.memo_text).length = 2 := by
    unfold splitn2
    have h5 : splitFirst ':' ("AUTH:".data ++ msg.memo_text.data.drop 5) =
        some ("AUTH".data, msg.memo_text.data.drop 5) :=
      splitFirst_append_of_not_mem ':' "AUTH".data _ (by decide)
    rw [show msg.memo_text.data = "AUTH:".data ++
      msg.memo_text.data.drop 5 from hdata]
    rw [h5]
    rfl
  unfold Coordinator.handle_authentication
  rw [if_neg (by simp [hs]), if_pos ⟨hp, hsig⟩]
  refine ⟨?_, ?_⟩
  · show mapGet (mapInsert c.session_mappings gen
      ((authGetReply c.auth_flow msg.sender_address).getD
        msg.sender_address)) s0 = some r0
    rw [mapGet_insert_ne c.session_mappings gen _ s0 hne]
    exact hs0
  · show mapGet (mapInsert c.session_mappings gen
      ((authGetReply c.auth_flow msg.sender_address).getD
        msg.sender_address)) gen = _
    exact mapGet_insert_self c.session_mappings gen _

/-- C4 witness: the accumulation theorem evaluated on the two-AUTH
trace. -/
theorem C4_witness :
    mapGet (auth4.process_incoming_message (authMsg "tok3")
        "sid2" 0).2.session_mappings "sid1" = some "r"
    ∧ mapGet (auth4.process_incoming_message (authMsg "tok3")
        "sid2" 0).2.session_mappings "sid2" = some "r" := by
  have := C4_sessions_accumulate auth4 (authMsg "tok3") "sid2" 0 "sid1" "r"
    rfl rfl rfl rfl (by decide)
  exact ⟨this.1, this.2.trans rfl⟩

/-- Generic assembly step shared by the mutation operations: when the
path-directed update succeeded but the per-parent body reported an
error, the root is unchanged. -/
theorem assemble_err {fs : FileSystem} {pp : String}
    {f : FileNode → Except String Unit × FileNode}
    (Hf : ∀ t, (f t).2 = t ∨ (f t).1 = .ok ()) {e : String}
    {r : Except String Unit} {root' : FileNode}
    (hu : fs.update_path pp f = some (r, root')) (hr : r = .error e) :
    (⟨root'⟩ : FileSystem) = fs := by
  have hroot : root' = fs.root := by
    refine update_path_err (fun x => x = Except.error e) ?_ hu hr
    intro t ht
    rcases Hf t with h' | h'
    · exact h'
    · rw [h'] at ht
      exact Except.noConfusion ht
  rw [hroot]

/-- C5: whenever `create_directory`, `create_file` or `remove` returns
an error, the filesystem tree is exactly as it was before the call. -/
theorem C5_no_partial_mutation :
    ∀ (fs : FileSystem) (path owner content user : String) (now : Nat)
      (e : String),
      ((fs.create_directory path owner now).1 = .error e →
        (fs.create_directory path owner now).2 = fs)
      ∧ ((fs.create_file path content owner now).1 = .error e →
        (fs.create_file path content owner now).2 = fs)
      ∧ ((fs.remove path user now).1 = .error e →
        (fs.remove path user now).2 = fs) := by
  intro fs path owner content user now e
  refine ⟨?_, ?_, ?_⟩
  · cases hsp : split_path path with
    | error e' => intro _; simp [FileSystem.create_directory, hsp]
    | ok pr =>
      obtain ⟨pp, nm⟩ := pr
      intro h
      simp only [FileSystem.create_directory, hsp] at h ⊢
      cases hu : fs.update_path pp (createDirAt nm owner now) with
      | none => simp [hu]
      | some pr2 =>
        obtain ⟨r, root'⟩ := pr2
        rw [hu] at h
        exact assemble_err (createDirAt_fix_or_ok nm owner now) hu h
  · cases hsp : split_path path with
    | error e' => intro _; simp [FileSystem.create_file, hsp]
    | ok pr =>
      obtain ⟨pp, nm⟩ := pr
      intro h
      simp only [FileSystem.create_file, hsp] at h ⊢
      cases hu : fs.update_path pp (createFileAt nm content owner now) with
      | none => simp [hu]
      | some pr2 =>
        obtain ⟨r, root'⟩ := pr2
        rw [hu] at h
        exact assemble_err (createFileAt_fix_or_ok nm content owner now) hu h
  · by_cases hroot : path = "/"
    · intro _; simp [FileSystem.remove, hroot]
    · cases hsp : split_path path with
      | error e' => intro _; simp [FileSystem.remove, hroot, hsp]
      | ok pr =>
        obtain ⟨pp, nm⟩ := pr
        intro h
        simp only [FileSystem.remove, if_neg hroot, hsp] at h ⊢
        cases hu : fs.update_path pp (removeAt path nm user now) with
        | none => simp [hu]
        | some pr2 =>
          obtain ⟨r, root'⟩ := pr2
          rw [hu] at h
          exact assemble_err (removeAt_fix_or_ok path nm user now) hu h

/-- C5 witness: a permission-denied `create_directory` by a non-writer
leaves the tree untouched. -/
theorem C5_witness :
    ((FileSystem.new "o" 0).create_directory "/d" "u" 1).1 =
        .error "Permission denied: cannot write to parent directory"
    ∧ ((FileSystem.new "o" 0).create_directory "/d" "u" 1).2 =
        FileSystem.new "o" 0 :=
  ⟨rfl,
    (C5_no_partial_mutation (FileSystem.new "o" 0) "/d" "u" "" "u" 1
      "Permission denied: cannot write to parent directory").1 rfl⟩

/-- C1 counterexample: `"a"` owns the node at `/f.txt` but cannot write
the parent (root) directory, and `remove` nevertheless fails with the
PermissionDenied error — the claim's owner exemption does not hold. -/
theorem C1_counterexample :
    (permTraceFs.resolve_path "/f.txt").map (fun n => n.permissions.owner) =
        some "a"
    ∧ permTraceFs.root.permissions.can_write "a" = false
    ∧ permTraceFs.remove "/f.txt" "a" 5 =
        (.error "Permission denied: cannot write to parent directory",
          permTraceFs) :=
  ⟨rfl, rfl, rfl⟩

/-- The not-found error message never coincides with a
permission-denied message (their first characters differ). -/
theorem notFound_ne_permDenied (path m : String)
    (hm : m.data.head? = some 'P') :
    Except.error (ε := String) (α := Unit)
      ("File or directory not found: " ++ path) ≠ Except.error m := by
  intro h
  injection h with h
  have hd := congrArg String.data h
  rw [String.data_append] at hd
  have h0 : some 'F' = some 'P' := by
    calc some 'F'
        = ("File or directory not found: ".data ++ path.data).head? := rfl
      _ = m.data.head? := by rw [hd]
      _ = some 'P' := hm
  injection h0 with h0
  exact absurd h0 (by decide)

/-- C1 (amended): for a non-root path whose parent resolves, `remove`
fails with a PermissionDenied error exactly when the actor cannot write
the parent directory — being the item's owner gives no exemption (the
source's owner-or-parent-write check is unreachable because the
parent-write check has already run). -/
theorem C1_remove_parent_write_gate :
    ∀ (fs : FileSystem) (path user : String) (now : Nat) (pp nm : String)
      (parent : FileNode),
      path ≠ "/" →
      split_path path = .ok (pp, nm) →
      fs.resolve_path pp = some parent →
      (((fs.remove path user now).1 =
          .error "Permission denied: cannot write to parent directory"
        ∨ (fs.remove path user now).1 =
          .error "Permission denied: cannot remove item")
        ↔ parent.permissions.can_write user = false) := by
  intro fs path user now pp nm parent hpath hsp hres
  obtain ⟨root', hu⟩ := update_path_of_resolve (removeAt path nm user now) hres
  have hval : (fs.remove path user now).1 =
      (removeAt path nm user now parent).1 := by
    simp only [FileSystem.remove, if_neg hpath, hsp, hu]
  rw [hval]
  constructor
  · intro hdisj
    cases hcw : parent.permissions.can_write user with
    | false => rfl
    | true =>
      exfalso
      unfold removeAt at hdisj
      rw [if_neg (by simp [hcw])] at hdisj
      cases hg : parent.get_child nm with
      | none =>
        rw [hg] at hdisj
        rcases hdisj with hh | hh
        · exact notFound_ne_permDenied path
            "Permission denied: cannot write to parent directory" rfl hh
        · exact notFound_ne_permDenied path
            "Permission denied: cannot remove item" rfl hh
      | some item =>
        rw [hg] at hdisj
        simp [hcw] at hdisj
  · intro hcw
    left
    unfold removeAt
    rw [if_pos (by simp [hcw])]

/-- C1 witness: the amended gate evaluated on the owner-but-not-parent-
writer state. -/
theorem C1_witness :
    ((permTraceFs.remove "/f.txt" "a" 5).1 =
        .error "Permission denied: cannot write to parent directory"
      ∨ (permTraceFs.remove "/f.txt" "a" 5).1 =
        .error "Permission denied: cannot remove item")
    ↔ permTraceFs.root.permissions.can_write "a" = false :=
  C1_remove_parent_write_gate permTraceFs "/f.txt" "a" 5 "/" "f.txt"
    permTraceFs.root (by decide) rfl rfl

/-- C6: under a resolvable parent writable by the actor,
`create_directory` fails with AlreadyExists when a child of that name
exists while `create_file` succeeds (overwriting the child); the spec's
scenario `touch /f.txt hello`, `touch /f.txt world`, `cat /f.txt`
returns `world`. -/
theorem C6_create_asymmetry :
    (∀ (fs : FileSystem) (path owner : String) (now : Nat) (pp nm : String)
        (parent : FileNode),
      split_path path = .ok (pp, nm) →
      fs.resolve_path pp = some parent →
      parent.permissions.can_write owner = true →
      childContains parent.children nm = true →
      (fs.create_directory path owner now).1 =
        .error "Directory already exists")
    ∧ (∀ (fs : FileSystem) (path content owner : String) (now : Nat)
        (pp nm : String) (parent : FileNode),
      split_path path = .ok (pp, nm) →
      fs.resolve_path pp = some parent →
      parent.permissions.can_write owner = true →
      parent.file_type = FileType.Directory →
      (fs.create_file path content owner now).1 = .ok ())
    ∧ (scenario2.process_incoming_message (cmdMsg "cat /f.txt") "g" 3).1 =
        .ok "world" := by
  refine ⟨?_, ?_, rfl⟩
  · intro fs path owner now pp nm parent hsp hres hcw hex
    obtain ⟨root', hu⟩ :=
      update_path_of_resolve (createDirAt nm owner now) hres
    have hval : (fs.create_directory path owner now).1 =
        (createDirAt nm owner now parent).1 := by
      simp only [FileSystem.create_directory, hsp, hu]
    rw [hval]
    unfold createDirAt
    rw [if_neg (by simp [hcw]), if_pos hex]
  · intro fs path content owner now pp nm parent hsp hres hcw hdir
    obtain ⟨root', hu⟩ :=
      update_path_of_resolve (createFileAt nm content owner now) hres
    have hval : (fs.create_file path content owner now).1 =
        (createFileAt nm content owner now parent).1 := by
      simp only [FileSystem.create_file, hsp, hu]
    rw [hval]
    unfold createFileAt FileNode.add_child
    rw [if_neg (by simp [hcw]), if_neg (by simp [hdir])]

/-- C6 witness: on a root already holding `/f.txt`, `mkdir /f.txt`
fails with AlreadyExists while `touch /f.txt` succeeds. -/
theorem C6_witness :
    (overwriteFs.create_directory "/f.txt" "o" 2).1 =
        .error "Directory already exists"
    ∧ (overwriteFs.create_file "/f.txt" "world" "o" 2).1 = .ok () :=
  ⟨C6_create_asymmetry.1 overwriteFs "/f.txt" "o" 2 "/" "f.txt"
      overwriteFs.root rfl rfl rfl rfl,
    C6_create_asymmetry.2.1 overwriteFs "/f.txt" "world" "o" 2 "/" "f.txt"
      overwriteFs.root rfl rfl rfl rfl⟩

end ZatBoard
